import Mathlib

/-!
Shallow embedding of `src/threadpool.rs` (crate `threadpool` by marcustut).

The registry is a keyed table of workers.  Both compile-time variants of the
table (the default `HashMap` build and the `dashmap` feature build) are
modelled as association lists with unique keys; map lookup, insert and remove
are translated operation by operation.

Effectful parts are embedded explicitly:
* A spawned thread's *observable interaction* with the registry is captured by
  `ThreadSpec`: whether the shutdown receiver is still held when the registry
  attempts to send the shutdown signal (`recvAlive`), and what joining the
  thread produces (`joinResult` : the `Return` value, or the Debug rendering
  of a panic payload).  The caller-supplied factory
  `handle : Id -> State -> ThreadSpec Return` stands for the Rust closure of
  type `Fn(Id, State, Receiver<()>) -> JoinHandle<Return>`; the receiver
  argument carries no data and its handling by the thread body is summarised
  inside `ThreadSpec`.
* The side effects the registry performs (invoking the factory, attempting to
  send on the shutdown channel, joining the thread) are logged as an explicit
  `Event` trace returned next to each operation's result, so that claims such
  as "the factory is not invoked" or "the join is still attempted" are
  statable.
* Rust's `Clone` bound on `State` is the class `RustClone` (an arbitrary
  user-supplied function, as in Rust); Rust's `Debug` bound on `Id` is the
  class `RustDebug`, whose `fmt` models the rendering done by the format
  machinery on a debug-formatted argument.
* `unwrap` panics in `Drop::drop` are modelled with `Except Error`.
-/

set_option autoImplicit false

namespace Threadpool

/-- Rust `Debug` trait bound on `Id`: `fmt id` is the Debug rendering of `id`. -/
class RustDebug (α : Type) where
  fmt : α → String

/-- Rust `Clone` trait bound on `State`: an arbitrary caller-supplied clone. -/
class RustClone (α : Type) where
  clone : α → α

/-- The crate's `Error` enum.  As in the source, the worker-identifying
variants carry the id only as an already Debug-formatted `String`, never as a
value of the `Id` type; `SendShutdownSignal` wraps `SendError<()>`, whose
payload is the unit that failed to send. -/
inductive Error where
  | WorkerAlreadyExist (id : String)
  | WorkerNotFound (id : String)
  | StopError (worker_id : String) (error : String)
  | SendShutdownSignal
deriving DecidableEq

instance {ε α : Type} [DecidableEq ε] [DecidableEq α] : DecidableEq (Except ε α) := fun a b =>
  match a, b with
  | Except.ok x, Except.ok y => decidable_of_iff (x = y) (by simp)
  | Except.error x, Except.error y => decidable_of_iff (x = y) (by simp)
  | Except.ok _, Except.error _ => isFalse (fun h => Except.noConfusion h)
  | Except.error _, Except.ok _ => isFalse (fun h => Except.noConfusion h)

/-- The crate's `Result<T>` alias. -/
abbrev Result (T : Type) : Type := Except Error T

/-- Trace of the effects a registry operation performs: invoking the
caller-supplied factory, attempting `shutdown_tx.send(())`, and calling
`thread.join()`. -/
inductive Event (Id : Type) where
  | invokeFactory (id : Id)
  | sendAttempt (id : Id)
  | joinThread (id : Id)
deriving DecidableEq

/-- Observable behaviour of one spawned thread: `recvAlive` is true when the
shutdown receiver is still held at the moment the registry sends the signal
(so the send succeeds), and `joinResult` is what `thread.join()` yields:
`ok r` for a normal `Return` value, `error s` for the Debug rendering of a
panic payload. -/
structure ThreadSpec (Return : Type) where
  recvAlive : Bool
  joinResult : Except String Return
deriving DecidableEq

/-- `Worker<Id, State, Return>`: the id copy and the thread handle.  The
`phantom : PhantomData<State>` field has no runtime content and is omitted;
the `shutdown_tx` capability is represented by `thread.recvAlive` deciding
whether a send on it succeeds. -/
structure Worker (Id Return : Type) where
  id : Id
  thread : ThreadSpec Return
deriving DecidableEq

section Model

variable {Id State Return : Type}

/-- `Worker::new`: creates the shutdown channel (abstracted into
`ThreadSpec`), stores a copy of the id, and invokes the factory with the id
and the state it was given, obtaining the running thread's handle. -/
def Worker.new (id : Id) (state : State) (handle : Id → State → ThreadSpec Return) :
    Worker Id Return :=
  { id := id, thread := handle id state }

/-- `Worker::stop`:
`self.shutdown_tx.send(())?;` — if the receiver was already dropped the `?`
returns `Err(SendShutdownSignal)` at once; otherwise
`self.thread.join().map_err(|e| StopError { worker_id, error })?; Ok(())` —
the join's `Return` value is discarded by the trailing `?; Ok(())`. -/
def Worker.stop [RustDebug Id] (w : Worker Id Return) : Result Unit × List (Event Id) :=
  if w.thread.recvAlive then
    match w.thread.joinResult with
    | Except.ok _ =>
        (Except.ok (), [Event.sendAttempt w.id, Event.joinThread w.id])
    | Except.error e =>
        (Except.error (Error.StopError (RustDebug.fmt w.id) e),
         [Event.sendAttempt w.id, Event.joinThread w.id])
  else
    (Except.error Error.SendShutdownSignal, [Event.sendAttempt w.id])

/-- `ThreadPool<Id, State, Return>`: the workers table (both the `HashMap`
and the `DashMap` variants are modelled as an association list with unique
keys) and the shared state. -/
structure ThreadPool (Id State Return : Type) where
  workers : List (Id × Worker Id Return)
  state : State

/-- `ThreadPool::new`: empty table, the given state. -/
def ThreadPool.new (state : State) : ThreadPool Id State Return :=
  { workers := [], state := state }

/-- `HashMap::contains_key` / `DashMap::contains_key` on the modelled table. -/
def containsKey [DecidableEq Id] (id : Id) (l : List (Id × Worker Id Return)) : Bool :=
  l.any (fun kv => decide (kv.1 = id))

/-- `HashMap::remove(&id)`: the removed worker (if the key was present) and
the remaining table. -/
def removeEntry [DecidableEq Id] (id : Id) :
    List (Id × Worker Id Return) → Option (Worker Id Return) × List (Id × Worker Id Return)
  | [] => (none, [])
  | kv :: rest =>
    if kv.1 = id then (some kv.2, rest)
    else
      let r := removeEntry id rest
      (r.1, kv :: r.2)

/-- `DashMap::remove(&id)`: same removal, but yielding the `(key, value)`
pair as dashmap does. -/
def removeEntryDM [DecidableEq Id] (id : Id) :
    List (Id × Worker Id Return) → Option (Id × Worker Id Return) × List (Id × Worker Id Return)
  | [] => (none, [])
  | kv :: rest =>
    if kv.1 = id then (some kv, rest)
    else
      let r := removeEntryDM id rest
      (r.1, kv :: r.2)

/-- `ThreadPool::ids`, default (`HashMap`) build:
`self.workers.keys().cloned().collect()`. -/
def ThreadPool.ids (p : ThreadPool Id State Return) : List Id :=
  p.workers.map Prod.fst

/-- `ThreadPool::ids`, `dashmap` build:
`self.workers.iter().map(|r| r.id.clone()).collect()`. -/
def ThreadPool.idsDM (p : ThreadPool Id State Return) : List Id :=
  p.workers.map (fun kv => kv.2.id)

/-- `ThreadPool::spawn`, default (`HashMap`) build: if the key is occupied,
fail with `WorkerAlreadyExist(format Debug of id)` and do nothing else;
otherwise insert `Worker::new(id, self.state.clone(), handle)` under
`id.clone()`.  The returned trace records the factory invocation performed
inside `Worker::new`. -/
def ThreadPool.spawn [DecidableEq Id] [RustDebug Id] [RustClone State]
    (p : ThreadPool Id State Return) (id : Id) (handle : Id → State → ThreadSpec Return) :
    Result Unit × List (Event Id) × ThreadPool Id State Return :=
  if containsKey id p.workers then
    (Except.error (Error.WorkerAlreadyExist (RustDebug.fmt id)), [], p)
  else
    (Except.ok (), [Event.invokeFactory id],
     { p with
        workers := p.workers ++ [(id, Worker.new id (RustClone.clone p.state) handle)] })

/-- `ThreadPool::spawn`, `dashmap` build: identical body (the source
duplicates it under the feature switch; only the receiver is `&self` instead
of `&mut self`). -/
def ThreadPool.spawnDM [DecidableEq Id] [RustDebug Id] [RustClone State]
    (p : ThreadPool Id State Return) (id : Id) (handle : Id → State → ThreadSpec Return) :
    Result Unit × List (Event Id) × ThreadPool Id State Return :=
  if containsKey id p.workers then
    (Except.error (Error.WorkerAlreadyExist (RustDebug.fmt id)), [], p)
  else
    (Except.ok (), [Event.invokeFactory id],
     { p with
        workers := p.workers ++ [(id, Worker.new id (RustClone.clone p.state) handle)] })

/-- `ThreadPool::stop`, default (`HashMap`) build:
`match self.workers.remove(&id) { Some(worker) => worker.stop(), None =>
Err(WorkerNotFound(format Debug of id)) }`.  The table update (removal) is
performed by `remove` itself, before `worker.stop()` runs, and is never
rolled back. -/
def ThreadPool.stop [DecidableEq Id] [RustDebug Id]
    (p : ThreadPool Id State Return) (id : Id) :
    Result Unit × List (Event Id) × ThreadPool Id State Return :=
  match removeEntry id p.workers with
  | (some w, rest) =>
      let r := Worker.stop w
      (r.1, r.2, { p with workers := rest })
  | (none, _) =>
      (Except.error (Error.WorkerNotFound (RustDebug.fmt id)), [], p)

/-- `ThreadPool::stop`, `dashmap` build: same, with dashmap's
`Some((_, worker))` removal result. -/
def ThreadPool.stopDM [DecidableEq Id] [RustDebug Id]
    (p : ThreadPool Id State Return) (id : Id) :
    Result Unit × List (Event Id) × ThreadPool Id State Return :=
  match removeEntryDM id p.workers with
  | (some kw, rest) =>
      let r := Worker.stop kw.2
      (r.1, r.2, { p with workers := rest })
  | (none, _) =>
      (Except.error (Error.WorkerNotFound (RustDebug.fmt id)), [], p)

/-- Teardown loop of `impl Drop for ThreadPool`, default build:
`for (_, worker) in self.workers.drain() { worker.stop().unwrap(); }`.
Each drained worker is stopped; `.unwrap()` on a failed stop panics, which is
modelled as `Except.error` aborting the teardown.  On success the accumulated
effect trace is returned. -/
def dropWorkers [RustDebug Id] :
    List (Id × Worker Id Return) → Except Error (List (Event Id))
  | [] => Except.ok []
  | kv :: rest =>
    let r := Worker.stop kv.2
    match r.1 with
    | Except.error e => Except.error e
    | Except.ok _ =>
      match dropWorkers rest with
      | Except.error e => Except.error e
      | Except.ok evs => Except.ok (r.2 ++ evs)

/-- `Drop::drop` for `ThreadPool` (default build): drain the whole table and
stop every worker, unwrapping each result. -/
def ThreadPool.drop [RustDebug Id] (p : ThreadPool Id State Return) :
    Except Error (List (Event Id)) :=
  dropWorkers p.workers

/-- A call against the registry, for whole-run equivalence of the two
builds. -/
inductive Op (Id State Return : Type) where
  | spawn (id : Id) (handle : Id → State → ThreadSpec Return)
  | stop (id : Id)
  | ids

/-- The externally observable output of one call. -/
inductive Output (Id : Type) where
  | res (r : Result Unit)
  | idList (l : List Id)

/-- One call on the default (`HashMap`) build. -/
def ThreadPool.runOp [DecidableEq Id] [RustDebug Id] [RustClone State]
    (p : ThreadPool Id State Return) :
    Op Id State Return → Output Id × ThreadPool Id State Return
  | Op.spawn id handle =>
      let r := p.spawn id handle
      (Output.res r.1, r.2.2)
  | Op.stop id =>
      let r := p.stop id
      (Output.res r.1, r.2.2)
  | Op.ids => (Output.idList p.ids, p)

/-- One call on the `dashmap` build. -/
def ThreadPool.runOpDM [DecidableEq Id] [RustDebug Id] [RustClone State]
    (p : ThreadPool Id State Return) :
    Op Id State Return → Output Id × ThreadPool Id State Return
  | Op.spawn id handle =>
      let r := p.spawnDM id handle
      (Output.res r.1, r.2.2)
  | Op.stop id =>
      let r := p.stopDM id
      (Output.res r.1, r.2.2)
  | Op.ids => (Output.idList p.idsDM, p)

/-- A whole call sequence on the default build. -/
def ThreadPool.run [DecidableEq Id] [RustDebug Id] [RustClone State]
    (p : ThreadPool Id State Return) :
    List (Op Id State Return) → List (Output Id) × ThreadPool Id State Return
  | [] => ([], p)
  | op :: ops =>
      let r := p.runOp op
      let rest := r.2.run ops
      (r.1 :: rest.1, rest.2)

/-- A whole call sequence on the `dashmap` build. -/
def ThreadPool.runDM [DecidableEq Id] [RustDebug Id] [RustClone State]
    (p : ThreadPool Id State Return) :
    List (Op Id State Return) → List (Output Id) × ThreadPool Id State Return
  | [] => ([], p)
  | op :: ops =>
      let r := p.runOpDM op
      let rest := r.2.runDM ops
      (r.1 :: rest.1, rest.2)

/-- Table invariant established by the registry: each stored worker's `id`
field equals its key (`insert(id.clone(), Worker::new(id, ..))`). -/
def WorkerIdsMatch (p : ThreadPool Id State Return) : Prop :=
  ∀ kv ∈ p.workers, kv.2.id = kv.1

end Model

/-! Concrete instances and values used to evaluate the model on closed
inputs. -/

instance : RustDebug Nat := ⟨fun n => toString n⟩

instance : RustClone Nat := ⟨fun n => n⟩

/-- A `State` type whose `Clone` implementation counts how many times it has
been invoked, making the number of `state.clone()` calls observable. -/
structure CountedState where
  val : Nat
  clones : Nat
deriving DecidableEq

instance : RustClone CountedState := ⟨fun c => { c with clones := c.clones + 1 }⟩

/-- A factory whose thread keeps its receiver and joins cleanly with value 1. -/
def okHandle : Nat → Nat → ThreadSpec Nat :=
  fun _ _ => { recvAlive := true, joinResult := Except.ok 1 }

/-- A worker whose thread keeps its receiver and joins cleanly with value 1. -/
def wOk : Worker Nat Nat :=
  { id := 0, thread := { recvAlive := true, joinResult := Except.ok 1 } }

/-- A worker whose thread dropped its receiver (the shutdown send will fail)
even though it then finished cleanly with value 1. -/
def wBad : Worker Nat Nat :=
  { id := 7, thread := { recvAlive := false, joinResult := Except.ok 1 } }

/-- A worker whose thread panicked: joining yields the Debug rendering of the
panic payload. -/
def wPanic : Worker Nat Nat :=
  { id := 3, thread := { recvAlive := true, joinResult := Except.error "panicked" } }

/-- A pool holding `wOk` under key 0, with state 42. -/
def p0 : ThreadPool Nat Nat Nat :=
  { workers := [(0, wOk)], state := 42 }

/-- A pool holding `wBad` under key 7. -/
def pBad : ThreadPool Nat Nat Nat :=
  { workers := [(7, wBad)], state := 0 }

/-- An empty pool over the clone-counting state. -/
def pc : ThreadPool Nat CountedState Nat :=
  { workers := [], state := { val := 42, clones := 0 } }

/-- A factory over the clone-counting state. -/
def hc : Nat → CountedState → ThreadSpec Nat :=
  fun _ _ => { recvAlive := true, joinResult := Except.ok 1 }

/-- A second clean worker, joining with value 2. -/
def wOk2 : Worker Nat Nat :=
  { id := 1, thread := { recvAlive := true, joinResult := Except.ok 2 } }

/-- A pool holding the two clean workers `wOk` and `wOk2`. -/
def pTwo : ThreadPool Nat Nat Nat :=
  { workers := [(0, wOk), (1, wOk2)], state := 0 }

/-! Helper lemmas about the modelled table. -/

section Lemmas

variable {Id State Return : Type}

theorem containsKey_iff [DecidableEq Id] (id : Id) (l : List (Id × Worker Id Return)) :
    containsKey id l = true ↔ id ∈ l.map Prod.fst := by
  simp only [containsKey, List.any_eq_true, decide_eq_true_eq, List.mem_map]

theorem removeEntry_of_absent [DecidableEq Id] (id : Id)
    (l : List (Id × Worker Id Return)) (h : containsKey id l = false) :
    removeEntry id l = (none, l) := by
  induction l with
  | nil => rfl
  | cons kv rest ih =>
    simp only [containsKey, List.any_cons, Bool.or_eq_false_iff, decide_eq_false_iff_not] at h
    simp only [removeEntry, if_neg h.1, ih h.2]

theorem removeEntry_mem_of_present [DecidableEq Id] (id : Id)
    (l : List (Id × Worker Id Return)) (h : containsKey id l = true) :
    ∃ w, (removeEntry id l).1 = some w := by
  induction l with
  | nil => simp [containsKey] at h
  | cons kv rest ih =>
    by_cases hk : kv.1 = id
    · exact ⟨kv.2, by simp [removeEntry, hk]⟩
    · simp only [containsKey, List.any_cons, Bool.or_eq_true, decide_eq_true_eq] at h
      rcases h with h | h
      · exact absurd h hk
      · obtain ⟨w, hw⟩ := ih h
        exact ⟨w, by simp [removeEntry, hk, hw]⟩

theorem mem_removeEntry_of_mem [DecidableEq Id] (id : Id)
    (l : List (Id × Worker Id Return)) :
    ∀ kv ∈ (removeEntry id l).2, kv ∈ l := by
  induction l with
  | nil => intro kv h; simp [removeEntry] at h
  | cons hd rest ih =>
    intro kv h
    by_cases hk : hd.1 = id
    · simp only [removeEntry, if_pos hk] at h
      exact List.mem_cons_of_mem hd h
    · simp only [removeEntry, if_neg hk, List.mem_cons] at h
      rcases h with h | h
      · exact h ▸ List.mem_cons_self hd rest
      · exact List.mem_cons_of_mem hd (ih kv h)

theorem not_mem_keys_removeEntry [DecidableEq Id] (id : Id)
    (l : List (Id × Worker Id Return)) (hnd : (l.map Prod.fst).Nodup) :
    id ∉ ((removeEntry id l).2.map Prod.fst) := by
  induction l with
  | nil => simp [removeEntry]
  | cons hd rest ih =>
    simp only [List.map_cons, List.nodup_cons] at hnd
    by_cases hk : hd.1 = id
    · simpa [removeEntry, if_pos hk, hk] using hnd.1
    · simp only [removeEntry, if_neg hk, List.map_cons, List.mem_cons]
      rintro (h | h)
      · exact hk h.symm
      · exact ih hnd.2 h

theorem removeEntryDM_eq [DecidableEq Id] (id : Id)
    (l : List (Id × Worker Id Return)) :
    (removeEntryDM id l).1.map Prod.snd = (removeEntry id l).1 ∧
    (removeEntryDM id l).2 = (removeEntry id l).2 := by
  induction l with
  | nil => exact ⟨rfl, rfl⟩
  | cons hd rest ih =>
    by_cases hk : hd.1 = id
    · simp [removeEntryDM, removeEntry, if_pos hk]
    · simp only [removeEntryDM, removeEntry, if_neg hk]
      exact ⟨ih.1, by simp [ih.2]⟩

theorem worker_stop_ok_events [RustDebug Id] (w : Worker Id Return)
    (h : (Worker.stop w).1 = Except.ok ()) :
    (Worker.stop w).2 = [Event.sendAttempt w.id, Event.joinThread w.id] := by
  unfold Worker.stop at h ⊢
  by_cases hr : w.thread.recvAlive = true
  · simp only [if_pos hr] at h ⊢
    cases hjr : w.thread.joinResult with
    | ok v => simp [hjr]
    | error e => simp [hjr] at h
  · simp only [if_neg hr] at h
    simp at h

theorem dropWorkers_all_ok [RustDebug Id] (l : List (Id × Worker Id Return))
    (h : ∀ kv ∈ l, (Worker.stop kv.2).1 = Except.ok ()) :
    ∃ evs, dropWorkers l = Except.ok evs ∧
      ∀ kv ∈ l, Event.sendAttempt kv.2.id ∈ evs ∧ Event.joinThread kv.2.id ∈ evs := by
  induction l with
  | nil => exact ⟨[], rfl, by simp⟩
  | cons hd rest ih =>
    have hhd := h hd (List.mem_cons_self hd rest)
    obtain ⟨evs, hevs, hmem⟩ := ih (fun kv hkv => h kv (List.mem_cons_of_mem hd hkv))
    have hev2 := worker_stop_ok_events hd.2 hhd
    refine ⟨(Worker.stop hd.2).2 ++ evs, ?_, ?_⟩
    · simp only [dropWorkers, hhd, hevs]
    · intro kv hkv
      rcases List.mem_cons.mp hkv with rfl | hkv'
      · rw [hev2]
        exact ⟨List.mem_append_left _ (by simp), List.mem_append_left _ (by simp)⟩
      · exact ⟨List.mem_append_right _ (hmem kv hkv').1,
              List.mem_append_right _ (hmem kv hkv').2⟩

theorem dropWorkers_fail [RustDebug Id] (l : List (Id × Worker Id Return))
    (kv : Id × Worker Id Return) (e : Error)
    (hkv : kv ∈ l) (he : (Worker.stop kv.2).1 = Except.error e) :
    ∃ e2, dropWorkers l = Except.error e2 := by
  induction l with
  | nil => cases hkv
  | cons hd rest ih =>
    rcases List.mem_cons.mp hkv with rfl | hkv'
    · exact ⟨e, by simp only [dropWorkers, he]⟩
    · cases hh : (Worker.stop hd.2).1 with
      | error e2 => exact ⟨e2, by simp only [dropWorkers, hh]⟩
      | ok u =>
        obtain ⟨e2, he2⟩ := ih hkv'
        exact ⟨e2, by simp only [dropWorkers, hh, he2]⟩

theorem spawnDM_eq_spawn [DecidableEq Id] [RustDebug Id] [RustClone State]
    (p : ThreadPool Id State Return) (id : Id) (handle : Id → State → ThreadSpec Return) :
    p.spawnDM id handle = p.spawn id handle := rfl

theorem stopDM_eq_stop [DecidableEq Id] [RustDebug Id]
    (p : ThreadPool Id State Return) (id : Id) :
    p.stopDM id = p.stop id := by
  have h := removeEntryDM_eq id p.workers
  unfold ThreadPool.stopDM ThreadPool.stop
  rcases hdm : removeEntryDM id p.workers with ⟨o, rest⟩
  rcases hre : removeEntry id p.workers with ⟨o2, rest2⟩
  rw [hdm, hre] at h
  obtain ⟨h1, h2⟩ := h
  dsimp at h1 h2
  subst h2
  cases o with
  | none =>
    cases o2 with
    | none => rfl
    | some w => exact absurd h1 (by simp)
  | some kw =>
    cases o2 with
    | none => exact absurd h1 (by simp)
    | some w =>
      have hkw : kw.2 = w := by simpa using h1
      simp [hkw]

theorem workerIdsMatch_new (s : State) :
    WorkerIdsMatch (ThreadPool.new s : ThreadPool Id State Return) := by
  intro kv hkv
  simp [ThreadPool.new] at hkv

theorem workerIdsMatch_spawn [DecidableEq Id] [RustDebug Id] [RustClone State]
    (p : ThreadPool Id State Return) (hinv : WorkerIdsMatch p)
    (id : Id) (handle : Id → State → ThreadSpec Return) :
    WorkerIdsMatch ((p.spawn id handle).2.2) := by
  intro kv hkv
  unfold ThreadPool.spawn at hkv
  by_cases h : containsKey id p.workers = true
  · simp only [if_pos h] at hkv
    exact hinv kv hkv
  · simp only [if_neg h] at hkv
    rcases List.mem_append.mp hkv with hkv' | hkv'
    · exact hinv kv hkv'
    · have : kv = (id, Worker.new id (RustClone.clone p.state) handle) := by
        simpa using hkv'
      rw [this]
      rfl

theorem workerIdsMatch_stop [DecidableEq Id] [RustDebug Id]
    (p : ThreadPool Id State Return) (hinv : WorkerIdsMatch p) (id : Id) :
    WorkerIdsMatch ((p.stop id).2.2) := by
  intro kv hkv
  unfold ThreadPool.stop at hkv
  rcases hre : removeEntry id p.workers with ⟨o, rest⟩
  rw [hre] at hkv
  cases o with
  | some w =>
    dsimp at hkv
    refine hinv kv (mem_removeEntry_of_mem id p.workers kv ?_)
    rw [hre]
    exact hkv
  | none => exact hinv kv hkv

theorem idsDM_eq_ids (p : ThreadPool Id State Return) (hinv : WorkerIdsMatch p) :
    p.idsDM = p.ids := by
  unfold ThreadPool.idsDM ThreadPool.ids
  exact List.map_congr_left (fun kv hkv => hinv kv hkv)

theorem runOpDM_eq_runOp [DecidableEq Id] [RustDebug Id] [RustClone State]
    (p : ThreadPool Id State Return) (hinv : WorkerIdsMatch p) (op : Op Id State Return) :
    p.runOpDM op = p.runOp op := by
  cases op with
  | spawn id handle =>
      simp only [ThreadPool.runOp, ThreadPool.runOpDM, spawnDM_eq_spawn]
  | stop id =>
      simp only [ThreadPool.runOp, ThreadPool.runOpDM, stopDM_eq_stop]
  | ids =>
      simp only [ThreadPool.runOp, ThreadPool.runOpDM, idsDM_eq_ids p hinv]

theorem workerIdsMatch_runOp [DecidableEq Id] [RustDebug Id] [RustClone State]
    (p : ThreadPool Id State Return) (hinv : WorkerIdsMatch p) (op : Op Id State Return) :
    WorkerIdsMatch ((p.runOp op).2) := by
  cases op with
  | spawn id handle => exact workerIdsMatch_spawn p hinv id handle
  | stop id => exact workerIdsMatch_stop p hinv id
  | ids => exact hinv

theorem runDM_eq_run [DecidableEq Id] [RustDebug Id] [RustClone State]
    (p : ThreadPool Id State Return) (hinv : WorkerIdsMatch p)
    (ops : List (Op Id State Return)) :
    p.runDM ops = p.run ops := by
  induction ops generalizing p with
  | nil => rfl
  | cons op ops ih =>
    simp only [ThreadPool.run, ThreadPool.runDM, runOpDM_eq_runOp p hinv op,
      ih (p.runOp op).2 (workerIdsMatch_runOp p hinv op)]

theorem workerIdsMatch_run [DecidableEq Id] [RustDebug Id] [RustClone State]
    (p : ThreadPool Id State Return) (hinv : WorkerIdsMatch p)
    (ops : List (Op Id State Return)) :
    WorkerIdsMatch ((p.run ops).2) := by
  induction ops generalizing p with
  | nil => exact hinv
  | cons op ops ih =>
    simp only [ThreadPool.run]
    exact ih (p.runOp op).2 (workerIdsMatch_runOp p hinv op)

end Lemmas

/-! Claim theorems. -/

section Claims

variable {Id State Return : Type}

/-- C1: for every pool and every id already present in the workers table,
`spawn(id, factory)` returns the `WorkerAlreadyExist` error (carrying the
Debug rendering of the id), inserts nothing and leaves the pool untouched,
performs no effect (in particular the factory is not invoked: the event
trace is empty), and the table afterwards still contains exactly one worker
under that id. -/
theorem spawn_existing_id [DecidableEq Id] [RustDebug Id] [RustClone State]
    (p : ThreadPool Id State Return) (id : Id) (handle : Id → State → ThreadSpec Return)
    (hnd : (p.workers.map Prod.fst).Nodup) (hmem : containsKey id p.workers = true) :
    p.spawn id handle =
      (Except.error (Error.WorkerAlreadyExist (RustDebug.fmt id)), [], p) ∧
    List.count id (((p.spawn id handle).2.2).workers.map Prod.fst) = 1 := by
  have h1 : p.spawn id handle =
      (Except.error (Error.WorkerAlreadyExist (RustDebug.fmt id)), [], p) := by
    simp [ThreadPool.spawn, hmem]
  refine ⟨h1, ?_⟩
  rw [h1]
  exact List.count_eq_one_of_mem hnd ((containsKey_iff id p.workers).mp hmem)

theorem spawn_existing_id_witness :
    p0.spawn 0 okHandle =
      (Except.error (Error.WorkerAlreadyExist (RustDebug.fmt 0)), [], p0) ∧
    List.count 0 (((p0.spawn 0 okHandle).2.2).workers.map Prod.fst) = 1 :=
  spawn_existing_id p0 0 okHandle (by decide) (by decide)

/-- C2: for every pool and every id not present in the workers table,
`stop(id)` returns the `WorkerNotFound` error (carrying the Debug rendering
of the id) and leaves the pool completely unchanged, with no effect performed
(no signal sent, no join attempted: the event trace is empty). -/
theorem stop_absent_id [DecidableEq Id] [RustDebug Id]
    (p : ThreadPool Id State Return) (id : Id)
    (h : containsKey id p.workers = false) :
    p.stop id = (Except.error (Error.WorkerNotFound (RustDebug.fmt id)), [], p) := by
  simp [ThreadPool.stop, removeEntry_of_absent id p.workers h]

theorem stop_absent_id_witness :
    p0.stop 1 = (Except.error (Error.WorkerNotFound (RustDebug.fmt 1)), [], p0) :=
  stop_absent_id p0 1 (by decide)

/-- C3: for every pool with unique keys and every id present in the workers
table, after `stop(id)` returns the entry for `id` has been removed, so `id`
is absent from `ids()`.  The resulting table does not depend on the outcome
of the worker's stop protocol (the removal happens first and is never rolled
back), so this holds whether `stop` returned success, `StopError` or
`SendShutdownSignal`. -/
theorem stop_removes_entry [DecidableEq Id] [RustDebug Id]
    (p : ThreadPool Id State Return) (id : Id)
    (hnd : (p.workers.map Prod.fst).Nodup) (hmem : containsKey id p.workers = true) :
    id ∉ ((p.stop id).2.2).ids := by
  obtain ⟨w, hw⟩ := removeEntry_mem_of_present id p.workers hmem
  have hkeys := not_mem_keys_removeEntry id p.workers hnd
  unfold ThreadPool.stop
  rcases hr : removeEntry id p.workers with ⟨o, rest⟩
  rw [hr] at hw hkeys
  cases o with
  | none => exact absurd hw (by simp)
  | some w0 => simpa [ThreadPool.ids] using hkeys

theorem stop_removes_entry_witness :
    ((7 : Nat) ∉ ((pBad.stop 7).2.2).ids) ∧ (pBad.stop 7).1 = Except.error Error.SendShutdownSignal :=
  ⟨stop_removes_entry pBad 7 (by decide) (by decide), by decide⟩

/-- C4, counterexample: a worker whose thread dropped its receiver (so the
shutdown send fails) even though the thread has already finished cleanly.
`Worker::stop` returns the `SendShutdownSignal` error immediately — the `?`
on `send` short-circuits — and the join is never attempted (no `joinThread`
event in the trace), contradicting the claim that the join is still
attempted. -/
theorem worker_stop_no_join_counterexample :
    (Worker.stop wBad).1 = Except.error Error.SendShutdownSignal ∧
    Event.joinThread wBad.id ∉ (Worker.stop wBad).2 := by
  decide

/-- C4, amended: in `Worker::stop`, if sending the shutdown signal fails
(the receiver was already dropped), the implementation returns immediately
with the `SendShutdownSignal` error and does not attempt to join the worker's
thread: the effect trace contains only the failed send attempt. -/
theorem worker_stop_send_fail {Id Return : Type} [RustDebug Id]
    (w : Worker Id Return) (h : w.thread.recvAlive = false) :
    Worker.stop w = (Except.error Error.SendShutdownSignal, [Event.sendAttempt w.id]) := by
  simp [Worker.stop, h]

theorem worker_stop_send_fail_witness :
    Worker.stop wBad = (Except.error Error.SendShutdownSignal, [Event.sendAttempt wBad.id]) :=
  worker_stop_send_fail wBad (by decide)

/-- C5, counterexample: two workers whose threads join with different
`Return` values (1 and 2) produce identical `Worker::stop` outputs, so the
`Return` value yielded by the join is not observable to the caller of `stop`:
the source's `self.thread.join().map_err(..)?; Ok(())` discards it and
`stop` returns `Result<()>`. -/
theorem stop_return_value_unobservable :
    ({ id := 0, thread := { recvAlive := true, joinResult := Except.ok 1 } } :
        Worker Nat Nat).thread.joinResult ≠
      ({ id := 0, thread := { recvAlive := true, joinResult := Except.ok 2 } } :
        Worker Nat Nat).thread.joinResult ∧
    Worker.stop ({ id := 0, thread := { recvAlive := true, joinResult := Except.ok 1 } } :
        Worker Nat Nat) =
      Worker.stop ({ id := 0, thread := { recvAlive := true, joinResult := Except.ok 2 } } :
        Worker Nat Nat) := by
  exact ⟨by simp, rfl⟩

/-- C5, amended: on a successful stop the blocking join does complete (the
`joinThread` event is in the trace) and consumes the thread's `Return` value,
but `stop` discards that value and returns the unit success `Ok(())`: the
result does not depend on the joined value, which is therefore not observable
to the caller of `stop`. -/
theorem worker_stop_success {Id Return : Type} [RustDebug Id]
    (w : Worker Id Return) (v : Return)
    (h1 : w.thread.recvAlive = true) (h2 : w.thread.joinResult = Except.ok v) :
    Worker.stop w = (Except.ok (), [Event.sendAttempt w.id, Event.joinThread w.id]) := by
  simp [Worker.stop, h1, h2]

theorem worker_stop_success_witness :
    Worker.stop wOk = (Except.ok (), [Event.sendAttempt wOk.id, Event.joinThread wOk.id]) :=
  worker_stop_success wOk 1 (by decide) (by decide)

/-- C10: every error variant that identifies a worker carries the id only as
its Debug-formatted String rendering (the model's `RustDebug.fmt`), never as
an `Id` value: `spawn` on an occupied key reports
`WorkerAlreadyExist (fmt id)`, `stop` on an absent key reports
`WorkerNotFound (fmt id)`, and a failed join reports
`StopError (fmt id) payload`.  (The `Error` type itself is not parameterised
by `Id`: all its payloads are `String`s, as in the source enum.) -/
theorem error_payload_is_debug_string [DecidableEq Id] [RustDebug Id] [RustClone State]
    (p : ThreadPool Id State Return) (id : Id) (handle : Id → State → ThreadSpec Return)
    (w : Worker Id Return) (e : String) :
    (containsKey id p.workers = true →
      (p.spawn id handle).1 = Except.error (Error.WorkerAlreadyExist (RustDebug.fmt id))) ∧
    (containsKey id p.workers = false →
      (p.stop id).1 = Except.error (Error.WorkerNotFound (RustDebug.fmt id))) ∧
    (w.thread.recvAlive = true → w.thread.joinResult = Except.error e →
      (Worker.stop w).1 = Except.error (Error.StopError (RustDebug.fmt w.id) e)) := by
  refine ⟨fun hmem => ?_, fun habs => ?_, fun h1 h2 => ?_⟩
  · simp [ThreadPool.spawn, hmem]
  · simp [ThreadPool.stop, removeEntry_of_absent id p.workers habs]
  · simp [Worker.stop, h1, h2]

theorem error_payload_is_debug_string_witness :
    (p0.spawn 0 okHandle).1 = Except.error (Error.WorkerAlreadyExist (RustDebug.fmt 0)) ∧
    (p0.stop 1).1 = Except.error (Error.WorkerNotFound (RustDebug.fmt 1)) ∧
    (Worker.stop wPanic).1 =
      Except.error (Error.StopError (RustDebug.fmt wPanic.id) "panicked") :=
  ⟨(error_payload_is_debug_string p0 0 okHandle wPanic "panicked").1 (by decide),
   (error_payload_is_debug_string p0 1 okHandle wPanic "panicked").2.1 (by decide),
   (error_payload_is_debug_string p0 0 okHandle wPanic "panicked").2.2 (by decide) (by decide)⟩

/-- C6: the `Drop` teardown drains the remaining entries and runs the stop
protocol on each: when every worker stops cleanly, teardown succeeds and the
effect trace shows the shutdown signal sent to and the join performed on
every one of the N entries; and if any individual worker's stop fails, the
`.unwrap()` makes the teardown abort with that failure surfaced (modelled as
`Except.error`), never swallowed. -/
theorem drop_stops_all_and_fails_loudly [RustDebug Id]
    (p : ThreadPool Id State Return) :
    ((∀ kv ∈ p.workers, (Worker.stop kv.2).1 = Except.ok ()) →
      ∃ evs, p.drop = Except.ok evs ∧
        ∀ kv ∈ p.workers,
          Event.sendAttempt kv.2.id ∈ evs ∧ Event.joinThread kv.2.id ∈ evs) ∧
    (∀ kv ∈ p.workers, ∀ e, (Worker.stop kv.2).1 = Except.error e →
      ∃ e2, p.drop = Except.error e2) :=
  ⟨fun h => dropWorkers_all_ok p.workers h,
   fun kv hkv e he => dropWorkers_fail p.workers kv e hkv he⟩

theorem drop_stops_all_and_fails_loudly_witness :
    (∃ evs, pTwo.drop = Except.ok evs ∧
      ∀ kv ∈ pTwo.workers,
        Event.sendAttempt kv.2.id ∈ evs ∧ Event.joinThread kv.2.id ∈ evs) ∧
    (∃ e2, pBad.drop = Except.error e2) :=
  ⟨(drop_stops_all_and_fails_loudly pTwo).1 (by decide),
   (drop_stops_all_and_fails_loudly pBad).2 (7, wBad) (by decide)
     Error.SendShutdownSignal (by decide)⟩

/-- C7: on a fresh pool, spawning two distinct ids A then B both succeed,
and `ids()` afterwards contains exactly the set containing A and B, each
exactly once (stated as a permutation of the two-element list, since the
order of a map's key snapshot is unspecified). -/
theorem spawn_two_distinct [DecidableEq Id] [RustDebug Id] [RustClone State]
    (a b : Id) (s : State) (ha hb : Id → State → ThreadSpec Return) (hne : a ≠ b) :
    ((ThreadPool.new s : ThreadPool Id State Return).spawn a ha).1 = Except.ok () ∧
    ((((ThreadPool.new s : ThreadPool Id State Return).spawn a ha).2.2).spawn b hb).1 =
      Except.ok () ∧
    (((((ThreadPool.new s : ThreadPool Id State Return).spawn a ha).2.2).spawn b hb).2.2).ids.Perm
      [a, b] := by
  refine ⟨by simp [ThreadPool.new, ThreadPool.spawn, containsKey], ?_, ?_⟩
  · simp [ThreadPool.new, ThreadPool.spawn, containsKey, hne]
  · have h : (((((ThreadPool.new s : ThreadPool Id State Return).spawn a ha).2.2).spawn
        b hb).2.2).ids = [a, b] := by
      simp [ThreadPool.new, ThreadPool.spawn, containsKey, hne, ThreadPool.ids]
    rw [h]

theorem spawn_two_distinct_witness :
    ((ThreadPool.new 5 : ThreadPool Nat Nat Nat).spawn 0 okHandle).1 = Except.ok () ∧
    ((((ThreadPool.new 5 : ThreadPool Nat Nat Nat).spawn 0 okHandle).2.2).spawn
        1 okHandle).1 = Except.ok () ∧
    (((((ThreadPool.new 5 : ThreadPool Nat Nat Nat).spawn 0 okHandle).2.2).spawn
        1 okHandle).2.2).ids.Perm [0, 1] :=
  spawn_two_distinct 0 1 5 okHandle okHandle (by decide)

/-- C9: the registry never mutates its `state` field: both `spawn` and
`stop` return a pool whose `state` equals the original (`ids` does not even
produce a pool), and a successful `spawn` inserts exactly
`Worker.new id (RustClone.clone p.state) handle`, i.e. the factory is passed
a single application of `clone` to the pool's state.  Evaluating this with
the clone-counting `CountedState` (each `clone` bumps a counter) shows the
worker sees clone count 1 while the pool's own state keeps clone count 0. -/
theorem state_never_mutated [DecidableEq Id] [RustDebug Id] [RustClone State]
    (p : ThreadPool Id State Return) (id : Id) (handle : Id → State → ThreadSpec Return) :
    ((p.spawn id handle).2.2).state = p.state ∧
    ((p.stop id).2.2).state = p.state ∧
    (containsKey id p.workers = false →
      ((p.spawn id handle).2.2).workers =
        p.workers ++ [(id, Worker.new id (RustClone.clone p.state) handle)]) := by
  refine ⟨?_, ?_, fun habs => ?_⟩
  · unfold ThreadPool.spawn
    by_cases h : containsKey id p.workers <;> simp [h]
  · unfold ThreadPool.stop
    rcases hr : removeEntry id p.workers with ⟨o, rest⟩
    cases o <;> simp
  · simp [ThreadPool.spawn, habs]

theorem state_never_mutated_witness :
    ((pc.spawn 0 hc).2.2).state = { val := 42, clones := 0 } ∧
    ((pc.spawn 0 hc).2.2).workers =
      [(0, Worker.new 0 { val := 42, clones := 1 } hc)] :=
  ⟨(state_never_mutated pc 0 hc).1, (state_never_mutated pc 0 hc).2.2 (by decide)⟩

/-- C8: the two backing strategies are externally equivalent.  Starting from
`new(state)`, running any sequence of `spawn` / `stop` / `ids` calls on the
default (`HashMap`) build and on the `dashmap` build produces the same list
of outputs (same results, same error conditions) and the same final table;
in particular the two builds' own `ids` views of the final table coincide
(same keys). -/
theorem strategies_equivalent [DecidableEq Id] [RustDebug Id] [RustClone State]
    (s : State) (ops : List (Op Id State Return)) :
    (ThreadPool.new s : ThreadPool Id State Return).runDM ops =
      (ThreadPool.new s : ThreadPool Id State Return).run ops ∧
    ((ThreadPool.new s : ThreadPool Id State Return).runDM ops).2.idsDM =
      ((ThreadPool.new s : ThreadPool Id State Return).run ops).2.ids := by
  have hrun := runDM_eq_run (ThreadPool.new s : ThreadPool Id State Return)
    (workerIdsMatch_new s) ops
  refine ⟨hrun, ?_⟩
  rw [hrun]
  exact idsDM_eq_ids _
    (workerIdsMatch_run (ThreadPool.new s : ThreadPool Id State Return)
      (workerIdsMatch_new s) ops)

end Claims

end Threadpool
